import Mathlib

/-!
Verification of the Veil-Browser core logic: address-bar URL/search
normalization (`navigate_to_url` in `main.py`, `navigate` in
`veil_browser/browser_window.py`), the frameless-window drag/resize mouse
handlers, and the dated history store described by the design document.

Machine integers do not appear: Qt coordinates are modelled as `Int`
(the Python sources use unbounded ints/floats; all arithmetic here is
exact), and strings as Lean `String`s, i.e. lists of characters.
-/

namespace Veil

/-- ASCII whitespace stripped by Python's default `str.strip()`
(space, tab, newline, carriage return, vertical tab, form feed). -/
def isPySpace (c : Char) : Bool :=
  c == ' ' || c == '\t' || c == '\n' || c == '\r' || c == '\x0b' || c == '\x0c'

/-- Python `s.strip()`: drop leading and trailing whitespace. -/
def pyStrip (s : String) : String :=
  ⟨((s.data.dropWhile isPySpace).reverse.dropWhile isPySpace).reverse⟩

/-- Python `s.startswith(pre)`: `pre` is a prefix of `s`. -/
def pyStartsWith (s pre : String) : Bool :=
  decide (pre.data <+: s.data)

/-- Python `c in s` for a single-character `c`: membership of the character. -/
def pyContainsChar (s : String) (c : Char) : Bool :=
  decide (c ∈ s.data)

/-- Python `s.replace(" ", "+")`: a single-character pattern, so a
character-wise map. -/
def pyReplaceSpacePlus (s : String) : String :=
  ⟨s.data.map fun c => if c = ' ' then '+' else c⟩

/-- `VeilBrowser.navigate_to_url` from `src/main.py` (lines 452-498), up to
the URL string handed to the web view: the address-bar text is stripped;
empty input returns without navigating (`none`); text already carrying an
`http://`, `https://` or `file://` scheme passes through; text with a space
or with no `.` becomes a Google search URL with spaces replaced by `+`;
anything else gets `https://` prepended.  (The subsequent `QUrl` validity
check and the load call are external Qt collaborators.) -/
def navigate_to_url (input : String) : Option String :=
  let raw := pyStrip input
  if raw = "" then
    none
  else if pyStartsWith raw "http://" || pyStartsWith raw "https://"
      || pyStartsWith raw "file://" then
    some raw
  else if pyContainsChar raw ' ' || !pyContainsChar raw '.' then
    some ("https://www.google.com/search?q=" ++ pyReplaceSpacePlus raw)
  else
    some ("https://" ++ raw)

/-- `VeilBrowser.navigate` from `src/veil_browser/browser_window.py`
(lines 107-111): the raw address-bar text is rewritten to a Google search
URL unless it starts with `'http'` or `'https'`; no stripping, no space
replacement. -/
def navigate (url : String) : String :=
  if pyStartsWith url "http" || pyStartsWith url "https" then url
  else "https://google.com/search?q=" ++ url

/-- Qt mouse buttons (`event.button()` of a press event). -/
inductive MouseButton
  | left
  | right
  | middle
deriving DecidableEq

/-- The set of buttons held during a move event (`event.buttons()`). -/
structure ButtonState where
  left : Bool
  right : Bool
  middle : Bool
deriving DecidableEq

/-- `Qt.MouseButton.LeftButton` viewed as a buttons-held set: exactly the
left button. -/
def leftOnly : ButtonState :=
  ⟨true, false, false⟩

/-- The window-interaction state of `VeilBrowser`: window origin
`(ox, oy)` (`frameGeometry().topLeft()` of the frameless window), current
size, the configured minimum size (`minimumWidth()/minimumHeight()`), the
captured `_drag_position`, the `_resizing` flag, and `_resize_margin`. -/
structure WinState where
  ox : Int
  oy : Int
  width : Int
  height : Int
  minW : Int
  minH : Int
  dragX : Int
  dragY : Int
  resizing : Bool
  margin : Int
deriving DecidableEq

/-- `VeilBrowser.mousePressEvent` from `src/main.py` (lines 379-397).
`(x, y)` is `event.position()`, local to the window, so
`event.globalPosition()` is `(ox + x, oy + y)`.  A left press strictly
inside an edge margin enters resize mode and captures the global position;
otherwise it captures the offset `globalPosition - frameGeometry().topLeft()`.
Any other button changes nothing. -/
def mousePressEvent (st : WinState) (button : MouseButton) (x y : Int) : WinState :=
  if button = MouseButton.left then
    if x < st.margin ∨ x > st.width - st.margin
        ∨ y < st.margin ∨ y > st.height - st.margin then
      { st with resizing := true, dragX := st.ox + x, dragY := st.oy + y }
    else
      { st with dragX := (st.ox + x) - st.ox, dragY := (st.oy + y) - st.oy }
  else st

/-- `VeilBrowser.mouseMoveEvent` from `src/main.py` (lines 399-421).
`(gx, gy)` is `event.globalPosition()`.  With exactly the left button held:
in resize mode the window grows by the delta since the captured position,
clamped to the minima, and the captured position is refreshed; otherwise
the window moves to `globalPosition - _drag_position`.  With any other
button set, the resize flag is defensively cleared. -/
def mouseMoveEvent (st : WinState) (buttons : ButtonState) (gx gy : Int) : WinState :=
  if buttons = leftOnly then
    if st.resizing then
      { st with
          width := max st.minW (st.width + (gx - st.dragX)),
          height := max st.minH (st.height + (gy - st.dragY)),
          dragX := gx,
          dragY := gy }
    else
      { st with ox := gx - st.dragX, oy := gy - st.dragY }
  else
    { st with resizing := false }

/-- `VeilBrowser.mouseReleaseEvent` from `src/main.py` (lines 423-428):
any release clears the resize flag. -/
def mouseReleaseEvent (st : WinState) : WinState :=
  { st with resizing := false }

/-- `VeilBrowser.mousePressEvent` from `src/veil_browser/browser_window.py`
(lines 90-98): a left press always captures the global position and sets
the resize flag from the strict margin test; other buttons change
nothing. -/
def bwMousePressEvent (st : WinState) (button : MouseButton) (x y : Int) : WinState :=
  if button = MouseButton.left then
    { st with
        dragX := st.ox + x,
        dragY := st.oy + y,
        resizing := decide (x < st.margin ∨ y < st.margin
          ∨ st.width - x < st.margin ∨ st.height - y < st.margin) }
  else st

/-- A visited-page record: `{ url, timestamp }`, the timestamp an ISO-8601
string. -/
structure HistoryEntry where
  url : String
  timestamp : String
deriving DecidableEq

/-- The persisted history log: an association of calendar-date keys
(`YYYY-MM-DD`) to that day's entry sequence. -/
abbrev HistoryLog := List (String × List HistoryEntry)

/-- Modelled from the spec: the calendar-date key of an entry is the
timestamp truncated to its date component — the first ten characters
(`YYYY-MM-DD`) of the ISO-8601 string. -/
def dateKey (timestamp : String) : String :=
  ⟨timestamp.data.take 10⟩

/-- Order on history entries: lexicographic comparison of their timestamp
strings, the order a re-sort by timestamp uses. -/
def entryLE (a b : HistoryEntry) : Prop :=
  a.timestamp ≤ b.timestamp

instance : DecidableRel entryLE := fun a b =>
  inferInstanceAs (Decidable (a.timestamp ≤ b.timestamp))

instance : IsTotal HistoryEntry entryLE :=
  ⟨fun a b => le_total a.timestamp b.timestamp⟩

instance : IsTrans HistoryEntry entryLE :=
  ⟨fun _ _ _ hab hbc => le_trans hab hbc⟩

/-- Modelled from the spec: the re-sort of one day's sequence by
timestamp. -/
def sortDay (l : List HistoryEntry) : List HistoryEntry :=
  List.insertionSort entryLE l

/-- Modelled from the spec: `HistoryStore.append` (no implementation exists
under `src/`; only the `HISTORY_FILE` path in
`src/veil_browser/constants.py` remains).  Per §4.2 of the design
document it derives the date key from the timestamp, appends the new
entry under that key — creating the key if absent — and re-sorts that
day's sequence by timestamp before the log is written back. -/
def appendHistory (log : HistoryLog) (url timestamp : String) : HistoryLog :=
  let key := dateKey timestamp
  let e : HistoryEntry := ⟨url, timestamp⟩
  if key ∈ log.map Prod.fst then
    log.map fun p => if p.1 = key then (p.1, sortDay (p.2 ++ [e])) else p
  else
    log ++ [(key, sortDay [e])]

/-- A sequence of `append` calls, each a `(url, timestamp)` pair, run
against an initially empty (missing) history file. -/
def runAppends (calls : List (String × String)) : HistoryLog :=
  calls.foldl (fun log c => appendHistory log c.1 c.2) []

/-- The history-log invariant: dates are unique keys, and every day's
sequence is sorted ascending by timestamp. -/
def LogWF (log : HistoryLog) : Prop :=
  (log.map Prod.fst).Nodup ∧ ∀ p ∈ log, List.Sorted entryLE p.2

/-- C3: a drag gesture — a left press at window-body point `(lx, ly)`
(pointer at global `(x, y) = (ox + lx, oy + ly)`) while the origin is
`(ox, oy)`, followed by a move to global `(x', y')` with the left button
held — repositions the window origin to exactly
`(ox + (x' - x), oy + (y' - y))`. -/
theorem drag_gesture_moves_window (st : WinState) (lx ly x y x' y' : Int)
    (hidle : st.resizing = false)
    (hbody : ¬(lx < st.margin ∨ lx > st.width - st.margin
      ∨ ly < st.margin ∨ ly > st.height - st.margin))
    (hx : x = st.ox + lx) (hy : y = st.oy + ly) :
    (mouseMoveEvent (mousePressEvent st MouseButton.left lx ly) leftOnly x' y').ox
        = st.ox + (x' - x) ∧
    (mouseMoveEvent (mousePressEvent st MouseButton.left lx ly) leftOnly x' y').oy
        = st.oy + (y' - y) := by
  subst hx hy
  simp only [mousePressEvent, mouseMoveEvent, if_pos rfl, if_neg hbody, hidle,
    if_false, Bool.false_eq_true, if_true]
  constructor <;> ring

/-- C3 witness: dragging a window at origin `(100, 200)` grabbed at body
point `(50, 60)` (global `(150, 260)`) to global `(170, 300)` puts the
origin at `(120, 240)`. -/
theorem drag_gesture_moves_window_witness :
    (mouseMoveEvent
        (mousePressEvent ⟨100, 200, 1200, 800, 0, 0, 0, 0, false, 10⟩
          MouseButton.left 50 60) leftOnly 170 300).ox = 120 ∧
    (mouseMoveEvent
        (mousePressEvent ⟨100, 200, 1200, 800, 0, 0, 0, 0, false, 10⟩
          MouseButton.left 50 60) leftOnly 170 300).oy = 240 := by
  have h := drag_gesture_moves_window ⟨100, 200, 1200, 800, 0, 0, 0, 0, false, 10⟩
    50 60 150 260 170 300 rfl (by decide) (by decide) (by decide)
  exact ⟨h.1.trans (by decide), h.2.trans (by decide)⟩

/-- C4: a left press inside the edge margin raises the resize flag and
captures the pointer's global position; and every later move step with the
left button held (from any resizing state `st`) sets the width to
`max minW (width + dx)` and the height to `max minH (height + dy)` for the
pointer delta `(dx, dy)` since the captured position, refreshes the
captured position to the current pointer, and never lets the window shrink
below the configured minimums. -/
theorem resize_steps_clamped (st0 st : WinState) (lx ly gx gy : Int)
    (hzone : lx < st0.margin ∨ lx > st0.width - st0.margin
      ∨ ly < st0.margin ∨ ly > st0.height - st0.margin)
    (hres : st.resizing = true) :
    (mousePressEvent st0 MouseButton.left lx ly).resizing = true ∧
    (mousePressEvent st0 MouseButton.left lx ly).dragX = st0.ox + lx ∧
    (mousePressEvent st0 MouseButton.left lx ly).dragY = st0.oy + ly ∧
    (mouseMoveEvent st leftOnly gx gy).width
        = max st.minW (st.width + (gx - st.dragX)) ∧
    (mouseMoveEvent st leftOnly gx gy).height
        = max st.minH (st.height + (gy - st.dragY)) ∧
    (mouseMoveEvent st leftOnly gx gy).dragX = gx ∧
    (mouseMoveEvent st leftOnly gx gy).dragY = gy ∧
    st.minW ≤ (mouseMoveEvent st leftOnly gx gy).width ∧
    st.minH ≤ (mouseMoveEvent st leftOnly gx gy).height := by
  simp only [mousePressEvent, mouseMoveEvent, if_pos rfl, if_pos hzone, hres, if_true]
  refine ⟨?_, ?_, ?_, ?_, ?_, ?_, ?_, ?_, ?_⟩ <;> first | trivial | exact le_max_left _ _

/-- C4 witness: a press at `(5, 400)` of a 1200×800 window (margin 10,
minimum size 300×200) enters resize mode, and a move step from a resizing
state with captured position `(5, 400)` to `(3, 360)` — delta
`(-2, -40)` — clamps at nothing: width 1198, height 760, captured position
refreshed. -/
theorem resize_steps_clamped_witness :
    (mousePressEvent ⟨0, 0, 1200, 800, 300, 200, 0, 0, false, 10⟩
        MouseButton.left 5 400).resizing = true ∧
    (mousePressEvent ⟨0, 0, 1200, 800, 300, 200, 0, 0, false, 10⟩
        MouseButton.left 5 400).dragX = 5 ∧
    (mousePressEvent ⟨0, 0, 1200, 800, 300, 200, 0, 0, false, 10⟩
        MouseButton.left 5 400).dragY = 400 ∧
    (mouseMoveEvent ⟨0, 0, 1200, 800, 300, 200, 5, 400, true, 10⟩
        leftOnly 3 360).width = max 300 (1200 + (3 - 5)) ∧
    (mouseMoveEvent ⟨0, 0, 1200, 800, 300, 200, 5, 400, true, 10⟩
        leftOnly 3 360).height = max 200 (800 + (360 - 400)) ∧
    (mouseMoveEvent ⟨0, 0, 1200, 800, 300, 200, 5, 400, true, 10⟩
        leftOnly 3 360).dragX = 3 ∧
    (mouseMoveEvent ⟨0, 0, 1200, 800, 300, 200, 5, 400, true, 10⟩
        leftOnly 3 360).dragY = 360 ∧
    (300 : Int) ≤ (mouseMoveEvent ⟨0, 0, 1200, 800, 300, 200, 5, 400, true, 10⟩
        leftOnly 3 360).width ∧
    (200 : Int) ≤ (mouseMoveEvent ⟨0, 0, 1200, 800, 300, 200, 5, 400, true, 10⟩
        leftOnly 3 360).height := by
  have h := resize_steps_clamped ⟨0, 0, 1200, 800, 300, 200, 0, 0, false, 10⟩
    ⟨0, 0, 1200, 800, 300, 200, 5, 400, true, 10⟩ 5 400 3 360 (by decide) rfl
  exact ⟨h.1, h.2.1.trans (by decide), h.2.2.1.trans (by decide), h.2.2.2.1,
    h.2.2.2.2.1, h.2.2.2.2.2.1, h.2.2.2.2.2.2.1, h.2.2.2.2.2.2.2.1,
    h.2.2.2.2.2.2.2.2⟩

/-- C5: from any controller state — dragging or resizing — a pointer
release clears the resize flag, and a pointer move observed without the
primary (left) button held also clears it (defensive reset), returning the
controller to idle. -/
theorem release_or_unheld_move_resets (st : WinState) (bs : ButtonState)
    (gx gy : Int) (hbs : bs.left = false) :
    (mouseReleaseEvent st).resizing = false ∧
    (mouseMoveEvent st bs gx gy).resizing = false := by
  refine ⟨rfl, ?_⟩
  have hne : bs ≠ leftOnly := by
    intro he
    rw [he] at hbs
    exact Bool.true_eq_false.mp hbs
  simp only [mouseMoveEvent, if_neg hne]

/-- C5 witness: with the resize flag raised, both a release and a move
with no buttons held clear it. -/
theorem release_or_unheld_move_resets_witness :
    (mouseReleaseEvent ⟨0, 0, 1200, 800, 0, 0, 5, 5, true, 10⟩).resizing = false ∧
    (mouseMoveEvent ⟨0, 0, 1200, 800, 0, 0, 5, 5, true, 10⟩
        ⟨false, false, false⟩ 50 50).resizing = false :=
  release_or_unheld_move_resets ⟨0, 0, 1200, 800, 0, 0, 5, 5, true, 10⟩
    ⟨false, false, false⟩ 50 50 rfl

/-- C10: a press of any button other than the left button is a no-op on
the window-interaction state — drag position and resize flag untouched —
in both revisions of the handler. -/
theorem non_left_press_is_noop (st : WinState) (b : MouseButton) (x y : Int)
    (hb : b ≠ MouseButton.left) :
    mousePressEvent st b x y = st ∧ bwMousePressEvent st b x y = st := by
  constructor <;> simp only [mousePressEvent, bwMousePressEvent, if_neg hb]

/-- C10 witness: a right-button press deep inside the resize margin
changes nothing in either revision. -/
theorem non_left_press_is_noop_witness :
    mousePressEvent ⟨0, 0, 1200, 800, 0, 0, 7, 8, false, 10⟩
        MouseButton.right 2 3 = ⟨0, 0, 1200, 800, 0, 0, 7, 8, false, 10⟩ ∧
    bwMousePressEvent ⟨0, 0, 1200, 800, 0, 0, 7, 8, false, 10⟩
        MouseButton.right 2 3 = ⟨0, 0, 1200, 800, 0, 0, 7, 8, false, 10⟩ :=
  non_left_press_is_noop ⟨0, 0, 1200, 800, 0, 0, 7, 8, false, 10⟩
    MouseButton.right 2 3 (by decide)

/-- C7 counterexample: a left press at local `(10, 400)` of a 1200×800
window with margin 10 — the pointer's distance to the left edge equal to
the margin, i.e. exactly on the resize-margin boundary — does NOT enter
the resizing state: the strict comparisons `x < margin`, `x > width -
margin`, … are all false there, so the press falls to the dragging branch,
refuting resize-takes-precedence at the boundary. -/
theorem margin_boundary_press_not_resizing :
    (mousePressEvent ⟨0, 0, 1200, 800, 0, 0, 0, 0, false, 10⟩
        MouseButton.left 10 400).resizing = false := by
  decide

/-- C7 amended: a left press whose distance to every edge is at least the
margin — including points exactly on the margin boundary — deterministically
enters the dragging state: the resize flag stays down and the drag offset
`globalPosition - origin` is captured; resizing requires a distance
strictly below the margin, so drag, not resize, is the tie-break on the
boundary. -/
theorem boundary_press_enters_dragging (st : WinState) (x y : Int)
    (hidle : st.resizing = false)
    (hx1 : st.margin ≤ x) (hx2 : x ≤ st.width - st.margin)
    (hy1 : st.margin ≤ y) (hy2 : y ≤ st.height - st.margin) :
    (mousePressEvent st MouseButton.left x y).resizing = false ∧
    (mousePressEvent st MouseButton.left x y).dragX = (st.ox + x) - st.ox ∧
    (mousePressEvent st MouseButton.left x y).dragY = (st.oy + y) - st.oy := by
  have hbody : ¬(x < st.margin ∨ x > st.width - st.margin
      ∨ y < st.margin ∨ y > st.height - st.margin) := by
    push_neg
    exact ⟨hx1, hx2, hy1, hy2⟩
  simp only [mousePressEvent, if_pos rfl, if_neg hbody]
  exact ⟨hidle, rfl, rfl⟩

/-- C7 amended witness: the boundary press at `(10, 400)` (distance to the
left edge exactly the margin 10) enters dragging with the body offset
captured. -/
theorem boundary_press_enters_dragging_witness :
    (mousePressEvent ⟨0, 0, 1200, 800, 0, 0, 0, 0, false, 10⟩
        MouseButton.left 10 400).resizing = false ∧
    (mousePressEvent ⟨0, 0, 1200, 800, 0, 0, 0, 0, false, 10⟩
        MouseButton.left 10 400).dragX = (0 + 10) - 0 ∧
    (mousePressEvent ⟨0, 0, 1200, 800, 0, 0, 0, 0, false, 10⟩
        MouseButton.left 10 400).dragY = (0 + 400) - 0 :=
  boundary_press_enters_dragging ⟨0, 0, 1200, 800, 0, 0, 0, 0, false, 10⟩
    10 400 rfl (by decide) (by decide) (by decide) (by decide)

/-- A string starting with `"https"` also starts with `"http"`: the
shorter prefix sits inside the longer. -/
theorem startsWith_https_imp_http (s : String)
    (h : pyStartsWith s "https" = true) : pyStartsWith s "http" = true := by
  simp only [pyStartsWith, decide_eq_true_eq] at h ⊢
  exact List.IsPrefix.trans (by decide) h

/-- C1: an address-bar input (already whitespace-trimmed) that contains a
`'.'`, contains no space, and carries none of the three recognised scheme
prefixes — `www.`-inputs included — is loaded as `https://` prepended to
the input; and an input already starting with `http://` or `https://` is
handed to the web view unchanged. -/
theorem navigate_to_url_direct_url (input : String)
    (hstrip : pyStrip input = input) :
    (pyContainsChar input '.' = true →
     pyContainsChar input ' ' = false →
     pyStartsWith input "http://" = false →
     pyStartsWith input "https://" = false →
     pyStartsWith input "file://" = false →
     navigate_to_url input = some ("https://" ++ input)) ∧
    ((pyStartsWith input "http://" = true ∨ pyStartsWith input "https://" = true) →
     navigate_to_url input = some input) := by
  constructor
  · intro hdot hsp h1 h2 h3
    have hne : input ≠ "" := by
      intro he
      rw [he] at hdot
      revert hdot
      decide
    simp [navigate_to_url, hstrip, hne, h1, h2, h3, hsp, hdot]
  · intro h
    have hne : input ≠ "" := by
      intro he
      rw [he] at h
      revert h
      decide
    rcases h with h | h <;> simp [navigate_to_url, hstrip, hne, h]

/-- C1 witness: `www.example.com` gains an `https://` prefix, and
`https://example.com` passes through unchanged. -/
theorem navigate_to_url_direct_url_witness :
    navigate_to_url "www.example.com" = some "https://www.example.com" ∧
    navigate_to_url "https://example.com" = some "https://example.com" :=
  ⟨(navigate_to_url_direct_url "www.example.com" (by decide)).1
      (by decide) (by decide) (by decide) (by decide) (by decide),
   (navigate_to_url_direct_url "https://example.com" (by decide)).2
      (Or.inr (by decide))⟩

/-- C2: a non-empty, whitespace-trimmed, scheme-less input containing a
space or containing no `'.'` is rewritten to the fixed search template
`https://www.google.com/search?q=` followed by the input with every space
turned into `'+'`. -/
theorem navigate_to_url_search_query (input : String)
    (hstrip : pyStrip input = input) (hne : input ≠ "")
    (h1 : pyStartsWith input "http://" = false)
    (h2 : pyStartsWith input "https://" = false)
    (h3 : pyStartsWith input "file://" = false)
    (hq : pyContainsChar input ' ' = true ∨ pyContainsChar input '.' = false) :
    navigate_to_url input
      = some ("https://www.google.com/search?q=" ++ pyReplaceSpacePlus input) := by
  rcases hq with hq | hq <;> simp [navigate_to_url, hstrip, hne, h1, h2, h3, hq]

/-- C2 witness: `how to boil an egg` becomes the Google search URL with
`how+to+boil+an+egg` as the query. -/
theorem navigate_to_url_search_query_witness :
    navigate_to_url "how to boil an egg"
      = some "https://www.google.com/search?q=how+to+boil+an+egg" :=
  (navigate_to_url_search_query "how to boil an egg" (by decide) (by decide)
      (by decide) (by decide) (by decide) (Or.inl (by decide))).trans (by decide)

/-- C6 counterexample: on the empty address-bar input, `navigate_to_url`
returns without issuing any load at all (`none`) — no default home target
is produced, contradicting the claim that `resolve("")` yields the
configured default target. -/
theorem empty_input_no_default_target : navigate_to_url "" = none := by
  decide

/-- C6 amended: every empty or whitespace-only address-bar input makes the
navigate operation return early without navigating anywhere — it neither
raises, nor searches, nor loads a default target. -/
theorem blank_input_no_navigation (input : String)
    (h : pyStrip input = "") : navigate_to_url input = none := by
  simp [navigate_to_url, h]

/-- C6 amended witness: a whitespace-only input produces no navigation. -/
theorem blank_input_no_navigation_witness : navigate_to_url "   " = none :=
  blank_input_no_navigation "   " (by decide)

/-- C9: the later revision's `navigate` passes every input whose first
four characters are `http` — `httpfoo` included — to the web view
unchanged, and rewrites exactly the inputs not beginning with `http` into
its search URL: the `'https'` member of the prefix tuple is redundant. -/
theorem navigate_http_prefix_only :
    (∀ url : String, navigate url =
      if pyStartsWith url "http" then url
      else "https://google.com/search?q=" ++ url) ∧
    navigate "httpfoo" = "httpfoo" := by
  constructor
  · intro url
    cases hb : pyStartsWith url "http" with
    | true => simp [navigate, hb]
    | false =>
      have h2 : pyStartsWith url "https" = false := by
        cases hb2 : pyStartsWith url "https" with
        | false => rfl
        | true =>
          rw [startsWith_https_imp_http url hb2] at hb
          exact absurd hb (by simp)
      simp [navigate, hb, h2]
  · decide

/-- The day re-sort really sorts: its output is ascending in `entryLE`. -/
theorem sortDay_sorted (l : List HistoryEntry) : (sortDay l).Sorted entryLE :=
  List.sorted_insertionSort entryLE l

/-- One `append` preserves the history-log invariant: unique date keys and
every day sorted ascending by timestamp. -/
theorem appendHistory_logWF (log : HistoryLog) (url ts : String)
    (h : LogWF log) : LogWF (appendHistory log url ts) := by
  obtain ⟨hnd, hsort⟩ := h
  unfold appendHistory
  by_cases hmem : dateKey ts ∈ log.map Prod.fst
  · rw [if_pos hmem]
    constructor
    · have hkeys : (log.map fun p =>
          if p.1 = dateKey ts then (p.1, sortDay (p.2 ++ [⟨url, ts⟩])) else p).map
            Prod.fst = log.map Prod.fst := by
        rw [List.map_map]
        apply List.map_congr_left
        intro p _
        by_cases hp : p.1 = dateKey ts <;> simp [hp]
      rw [hkeys]
      exact hnd
    · intro p hp
      rw [List.mem_map] at hp
      obtain ⟨q, hq, rfl⟩ := hp
      by_cases hqk : q.1 = dateKey ts
      · simp only [if_pos hqk]
        exact sortDay_sorted _
      · simp only [if_neg hqk]
        exact hsort q hq
  · rw [if_neg hmem]
    constructor
    · rw [List.map_append, List.nodup_append]
      refine ⟨hnd, List.nodup_singleton _, ?_⟩
      intro k hk hk1
      simp only [List.map_cons, List.map_nil, List.mem_singleton] at hk1
      exact hmem (hk1 ▸ hk)
    · intro p hp
      rw [List.mem_append] at hp
      rcases hp with hp | hp
      · exact hsort p hp
      · rw [List.mem_singleton] at hp
        subst hp
        exact sortDay_sorted _

/-- Folding any sequence of `append` calls over a well-formed log keeps it
well-formed. -/
theorem foldl_appendHistory_logWF (calls : List (String × String))
    (log : HistoryLog) (h : LogWF log) :
    LogWF (calls.foldl (fun acc c => appendHistory acc c.1 c.2) log) := by
  induction calls generalizing log with
  | nil => exact h
  | cons c cs ih => exact ih _ (appendHistory_logWF _ c.1 c.2 h)

/-- C8: after any sequence of `HistoryStore.append` calls — same-date
timestamps in any call order included — the persisted log has unique date
keys and every day's entry sequence sorted ascending by timestamp; the
property holds after every write because the sequence of calls is
arbitrary. -/
theorem history_appends_sorted_unique_keys (calls : List (String × String)) :
    ((runAppends calls).map Prod.fst).Nodup ∧
      ∀ p ∈ runAppends calls, List.Sorted entryLE p.2 :=
  foldl_appendHistory_logWF calls [] ⟨List.nodup_nil, by simp⟩

end Veil
